import Mathlib

/-!
Shallow embedding of the batching/coalescing engine of THRUSTDeltaV/deltasearch.

The repository contains two revisions of the `bulkRequest` component:
  * `bulkrequest.go` (package bulkgetter), the current revision — embedded below
    under the names of the source (`bulkRequest.add`, `processResponse`,
    `bulkRequest.execute`, ...);
  * an older revision of the same file (package bulkgetter, `performBulkRequest`),
    embedded with an `Old` suffix (`processDocOld`, `processResponseOld`, ...);
together with the `batch` component (package batchinggetter), embedded as
`batch.add` / `batch.execute`; `batch.execute` invokes `performBulkRequest`,
i.e. the old revision of the bulk component.

Modelling decisions:
  * Go maps are embedded as association lists (`List (String × _)`); `m[k] = v`
    is `insertKey`, `delete(m, k)` is `eraseKey`, `m[k]` is `lookupKey`.
    Iteration order of a Go map is unspecified; the list order stands for one
    such order, and all claims proved below are per-member, not order-dependent.
  * A result channel is identified by a `Nat`; the observable behaviour of an
    execution is a trace of `Event`s: `send` of a `GetResponse` on a channel,
    `close` of a channel, and `write` of a decoded payload into a destination
    (identified by a `Nat`).
  * `json.Unmarshal(src, dst)` is modelled by `RawSource` / `unmarshal`:
    `RawSource.ok p` unmarshals to payload `p` (written into `dst`),
    `RawSource.nil` is a nil `json.RawMessage` (absent `_source`; `Unmarshal`
    fails on it), `RawSource.bad` is a payload that fails to unmarshal.
  * A lookup `m[k]` that misses returns Go's zero value: a `reqresp` whose
    channel is nil.  Sending on a nil channel blocks forever; this outcome is
    modelled by the status `blocked` (the events emitted before the block are
    kept, the function never returns).  Likewise `b[k]` for a missing group key
    yields a nil map, and `b[k][id] = rr` then panics; `batch.add` therefore
    returns an `Option`, `none` standing for the panic.
  * The mutex around `decodeSource` serialises decodes; in this sequential
    model it has no observable effect.
  * The HTTP response is abstracted: `Response` carries the status code and a
    `Body` that either decodes to a list of wire-level per-document entries or
    fails to decode (`garbage`).  `Response.IsError` is opensearch-go's
    `StatusCode > 299`.
  * The two revisions' JSON struct tags differ in validity.  The current
    revision's tags are well-formed, so its call body serialises under
    `docs`/`_index`/`_id`/`_source`/`include` and its reply decoder binds the
    wire fields verbatim.  The old revision's tags are malformed (unquoted
    values such as `json:_index`), which `reflect.StructTag.Get` reports as
    absent, so `encoding/json` falls back to the Go field names: its call body
    serialises under `Docs`/`Index`/`ID`/`Source`/`Include`
    (`getReqBodyOld`), and its reply decoder (`decodeDocOld`) binds only
    `found` (a case-insensitive field-name match) and `_source` (its one
    well-formed tag), leaving `Index` and `ID` as the zero value `""`.
-/

set_option autoImplicit false

namespace DeltaSearch

/-- `GetRequest`: target index, document id, ordered field list (part of the
  caller-facing data model). -/
structure GetRequest where
  Index : String
  DocumentID : String
  Fields : List String
deriving Repr, DecidableEq

/-- `reqresp`: one pending request; `resp` identifies its result channel and
  `dst` the caller-supplied destination the decoded payload is written into. -/
structure reqresp where
  req : GetRequest
  resp : Nat
  dst : Nat
deriving Repr, DecidableEq

/-- The error values constructed by the code. `jsonErr` is a raw
  `encoding/json` error; `decodeBody`/`decodeSource` are its `fmt.Errorf`
  wrappings; `httpErr` is `ErrHTTP` wrapped with the response; `transport` is an
  error of the call itself. -/
inductive Err where
  | transport (msg : String)
  | jsonErr (msg : String)
  | decodeBody (msg : String)
  | decodeSource (msg : String)
  | httpErr (status : Nat)
  | unexpectedStatus (status : Nat)
deriving Repr, DecidableEq

/-- `GetResponse{found, err}` as sent on a result channel. -/
structure GetResponse where
  found : Bool
  error : Option Err
deriving Repr, DecidableEq

/-- Observable events of an execution. -/
inductive Event where
  | send (chan : Nat) (resp : GetResponse)
  | close (chan : Nat)
  | write (dst : Nat) (payload : String)
deriving Repr, DecidableEq

/-- A raw `_source` payload (`json.RawMessage`). -/
inductive RawSource where
  | nil
  | ok (payload : String)
  | bad
deriving Repr, DecidableEq

/-- `json.Unmarshal` of a raw source into a (non-nil) destination: succeeds
  exactly on `RawSource.ok`, returning the decoded payload. -/
def unmarshal : RawSource → Except String String
  | RawSource.ok p => Except.ok p
  | RawSource.nil => Except.error "unexpected end of JSON input"
  | RawSource.bad => Except.error "invalid character"

/-- One entry of a decoded multi-get reply (`responseDoc`). -/
structure responseDoc where
  Index : String
  ID : String
  Found : Bool
  Source : RawSource
deriving Repr, DecidableEq

/-- `keyFromResponseDoc`: lookup key of a reply entry (index ++ id). -/
def keyFromResponseDoc (d : responseDoc) : String :=
  d.Index ++ d.ID

/-- `keyFromRR`: key a pending request is stored under (index ++ id). -/
def keyFromRR (rr : reqresp) : String :=
  rr.req.Index ++ rr.req.DocumentID

section MapOps

variable {α : Type}

/-- `m[k]` of a Go map: first (unique) binding of `k`, if any. -/
def lookupKey (m : List (String × α)) (k : String) : Option α :=
  match m with
  | [] => none
  | (k', v) :: rest => if k' = k then some v else lookupKey rest k

/-- `delete(m, k)` of a Go map. -/
def eraseKey (m : List (String × α)) (k : String) : List (String × α) :=
  m.filter (fun p => p.1 ≠ k)

/-- `m[k] = v` of a Go map: overwrite the binding of `k`. -/
def insertKey (m : List (String × α)) (k : String) (v : α) : List (String × α) :=
  eraseKey m k ++ [(k, v)]

end MapOps

/-- `bulkRequest.rrs`: the map from per-document key to pending request. -/
abbrev bulkRequest := List (String × reqresp)

/-- `bulkRequest.add` (current revision): `r.rrs[keyFromRR(rr)] = rr`. -/
def bulkRequest.add (r : bulkRequest) (rr : reqresp) : bulkRequest :=
  insertKey r (keyFromRR rr) rr

/-- `sendBulkResponse(found, err)`: send `GetResponse{found, err}` on every
  pending request's channel and close it. -/
def sendBulkResponse (r : bulkRequest) (found : Bool) (err : Option Err) : List Event :=
  r.flatMap (fun p => [Event.send p.2.resp ⟨found, err⟩, Event.close p.2.resp])

/-- A JSON value, as far as the serialised call bodies need. -/
inductive Json where
  | str (s : String)
  | arr (xs : List Json)
  | obj (fields : List (String × Json))
deriving Repr

/-- `getReqBody` (current revision): the serialised call body
  `{"docs": [{"_index": I, "_id": ID, "_source": {"include": [fields...]}}, ...]}`,
  one entry per pending request in map-iteration order; this revision's struct
  tags are well-formed, so the tag names appear on the wire. -/
def getReqBody (r : bulkRequest) : Json :=
  Json.obj [("docs", Json.arr (r.map (fun p =>
    Json.obj [("_index", Json.str p.2.req.Index),
      ("_id", Json.str p.2.req.DocumentID),
      ("_source", Json.obj [("include", Json.arr (p.2.req.Fields.map Json.str))])])))]

/-- Status of processing one decoded reply entry / a run of entries. -/
inductive DStatus where
  | ok
  | abort (e : Err)
  | blocked
deriving Repr, DecidableEq

/-- Processing of one decoded entry in `processResponse`'s 200 loop (current
  revision): branch on `d.Found`; when found, `decodeSource(d.Source,
  r.rrs[key].dst)` then `sendResponse(key, true/false, ·)`.  A missing key
  gives the zero `reqresp`: a nil destination (so `Unmarshal` fails) and then a
  send on a nil channel, which blocks — status `blocked`. -/
def processDoc (r : bulkRequest) (d : responseDoc) : List Event × bulkRequest × DStatus :=
  let key := keyFromResponseDoc d
  if d.Found then
    match lookupKey r key with
    | none => ([], r, DStatus.blocked)
    | some rr =>
      match unmarshal d.Source with
      | Except.error m =>
        let e := Err.decodeSource m
        ([Event.send rr.resp ⟨false, some e⟩, Event.close rr.resp], eraseKey r key,
          DStatus.abort e)
      | Except.ok p =>
        ([Event.write rr.dst p, Event.send rr.resp ⟨true, none⟩, Event.close rr.resp],
          eraseKey r key, DStatus.ok)
  else
    match lookupKey r key with
    | none => ([], r, DStatus.blocked)
    | some rr =>
      ([Event.send rr.resp ⟨false, none⟩, Event.close rr.resp], eraseKey r key, DStatus.ok)

/-- The `for _, d := range docs` loop, parametrised by the per-entry step (the
  loop body is the only part that differs between the two revisions). -/
def foldDocs (step : bulkRequest → responseDoc → List Event × bulkRequest × DStatus) :
    bulkRequest → List responseDoc → List Event × bulkRequest × DStatus
  | r, [] => ([], r, DStatus.ok)
  | r, d :: ds =>
    match step r d with
    | (evs, r1, DStatus.ok) =>
      match foldDocs step r1 ds with
      | (evs2, r2, s) => (evs ++ evs2, r2, s)
    | (evs, r1, DStatus.abort e) => (evs, r1, DStatus.abort e)
    | (evs, r1, DStatus.blocked) => (evs, r1, DStatus.blocked)

/-- The body of an HTTP reply, abstracted at the point of `decodeResponse`:
  either the envelope decodes, carrying the wire-level per-document entries
  (the values under `_index`, `_id`, `found`, `_source`; the current
  revision's well-formed tags bind them verbatim into `responseDoc`, the old
  revision binds them through `decodeDocOld`), or decoding fails with a raw
  json error. -/
inductive Body where
  | docs (ds : List responseDoc)
  | garbage (msg : String)
deriving Repr, DecidableEq

/-- An `opensearchapi.Response`: status code plus body. -/
structure Response where
  StatusCode : Nat
  Body : Body
deriving Repr, DecidableEq

/-- opensearch-go's `Response.IsError()`: `StatusCode > 299`. -/
def Response.IsError (res : Response) : Bool :=
  299 < res.StatusCode

/-- Outcome of a call that may never return (a send on a nil channel blocks). -/
inductive Outcome where
  | ret (e : Option Err)
  | blocked
deriving Repr, DecidableEq

/-- `processResponse` (current revision): on 200, decode the body (failure:
  deliver the wrapped error to all and return it), run the per-doc loop
  (an abort returns its error), then fall through to
  `sendBulkResponse(false, err)` with the outer `err` still nil and return nil;
  on any other status build `ErrHTTP`-wrapped (when `IsError`) or
  "Unexpected HTTP return code" error, deliver it to all, and return it.
  Note the 404 status falls into the default branch and `IsError(404)` holds. -/
def processResponse (r : bulkRequest) (res : Response) : List Event × bulkRequest × Outcome :=
  match res.StatusCode with
  | 200 =>
    match res.Body with
    | Body.garbage m =>
      let e := Err.decodeBody m
      (sendBulkResponse r false (some e), r, Outcome.ret (some e))
    | Body.docs ds =>
      match foldDocs processDoc r ds with
      | (evs, r1, DStatus.blocked) => (evs, r1, Outcome.blocked)
      | (evs, r1, DStatus.abort e) => (evs, r1, Outcome.ret (some e))
      | (evs, r1, DStatus.ok) =>
        (evs ++ sendBulkResponse r1 false none, r1, Outcome.ret none)
  | s =>
    let e := if 299 < s then Err.httpErr s else Err.unexpectedStatus s
    (sendBulkResponse r false (some e), r, Outcome.ret (some e))

/-- The result of the multi-get call itself: a transport error (network /
  context cancellation) or a response. -/
inductive CallOutcome where
  | transportErr (msg : String)
  | response (res : Response)

/-- `bulkRequest.execute` (current revision): on transport failure deliver
  `{found:false, error:err}` to every pending request and return the error;
  otherwise process the response and return its error. -/
def bulkRequest.execute (r : bulkRequest) (call : CallOutcome) : List Event × Outcome :=
  match call with
  | CallOutcome.transportErr m =>
    let e := Err.transport m
    (sendBulkResponse r false (some e), Outcome.ret (some e))
  | CallOutcome.response res =>
    match processResponse r res with
    | (evs, _, o) => (evs, o)

/-- `keyFromResponseDoc` of the old revision (identical text in the source). -/
def keyFromResponseDocOld (d : responseDoc) : String :=
  d.Index ++ d.ID

/-- `keyFromRR` of the old revision (identical text in the source). -/
def keyFromRROld (rr : reqresp) : String :=
  rr.req.Index ++ rr.req.DocumentID

/-- `bulkRequest.add` of the old revision: `r[keyFromRR(rr)] = rr`. -/
def bulkRequestAddOld (r : bulkRequest) (rr : reqresp) : bulkRequest :=
  insertKey r (keyFromRROld rr) rr

/-- `getReqBody` of the old revision: the same loop over the pending map, but
  every struct tag of its local `doc` type is malformed (unquoted, e.g.
  `json:_index`), so `encoding/json` marshals under the Go field names:
  `{"Docs": [{"Index": I, "ID": ID, "Source": {"Include": [fields...]}}, ...]}`. -/
def getReqBodyOld (r : bulkRequest) : Json :=
  Json.obj [("Docs", Json.arr (r.map (fun p =>
    Json.obj [("Index", Json.str p.2.req.Index),
      ("ID", Json.str p.2.req.DocumentID),
      ("Source", Json.obj [("Include", Json.arr (p.2.req.Fields.map Json.str))])])))]

/-- Per-document field binding of the old revision's `decodeResponse`: its
  `responseDoc` tags for `Index`/`ID`/`Found` are malformed (unquoted), so
  `encoding/json` falls back to field names — the wire key `found` matches the
  field `Found` case-insensitively, but `_index` and `_id` match no field and
  leave the zero value `""`; `_source` has the one well-formed tag and binds.
  (The envelope still decodes: the wire key `docs` matches the field `Docs`
  case-insensitively.) -/
def decodeDocOld (w : responseDoc) : responseDoc :=
  ⟨"", "", w.Found, w.Source⟩

/-- Processing of one decoded entry in the old revision's 200 loop: it ignores
  `d.Found` and always runs `json.Unmarshal(d.Source, r[key].dst)`, then
  `sendResponse(key, true, nil)` on success or `sendResponse(key, false, err)`
  and abort on failure.  A missing key again gives the zero `reqresp` (nil
  destination, nil channel): `Unmarshal` fails and the send blocks. -/
def processDocOld (r : bulkRequest) (d : responseDoc) : List Event × bulkRequest × DStatus :=
  let key := keyFromResponseDocOld d
  match lookupKey r key with
  | none => ([], r, DStatus.blocked)
  | some rr =>
    match unmarshal d.Source with
    | Except.error m =>
      let e := Err.decodeSource m
      ([Event.send rr.resp ⟨false, some e⟩, Event.close rr.resp], eraseKey r key,
        DStatus.abort e)
    | Except.ok p =>
      ([Event.write rr.dst p, Event.send rr.resp ⟨true, none⟩, Event.close rr.resp],
        eraseKey r key, DStatus.ok)

/-- `processResponse` of the old revision: on 200, decode the body — its
  malformed per-document tags bind the wire entries through `decodeDocOld`
  (envelope failure: deliver the *raw* json error to all, return the wrapped
  one) — then run the loop (an abort returns its error without the trailing
  bulk send); an explicit `case 404` falls through; the default branch returns
  the `ErrHTTP`-wrapped error *without delivering anything* when `IsError`,
  and otherwise falls through.  Every fall-through path ends in
  `sendBulkResponse(false, nil)` and returns nil. -/
def processResponseOld (r : bulkRequest) (res : Response) : List Event × bulkRequest × Outcome :=
  match res.StatusCode with
  | 200 =>
    match res.Body with
    | Body.garbage m =>
      (sendBulkResponse r false (some (Err.jsonErr m)), r,
        Outcome.ret (some (Err.decodeBody m)))
    | Body.docs ds =>
      match foldDocs processDocOld r (ds.map decodeDocOld) with
      | (evs, r1, DStatus.blocked) => (evs, r1, Outcome.blocked)
      | (evs, r1, DStatus.abort e) => (evs, r1, Outcome.ret (some e))
      | (evs, r1, DStatus.ok) =>
        (evs ++ sendBulkResponse r1 false none, r1, Outcome.ret none)
  | 404 =>
    (sendBulkResponse r false none, r, Outcome.ret none)
  | s =>
    if 299 < s then ([], r, Outcome.ret (some (Err.httpErr s)))
    else (sendBulkResponse r false none, r, Outcome.ret none)

/-- `performBulkRequest` (old revision): same wrapper as the current
  `bulkRequest.execute`, around the old `processResponse`. -/
def performBulkRequest (r : bulkRequest) (call : CallOutcome) : List Event × Outcome :=
  match call with
  | CallOutcome.transportErr m =>
    let e := Err.transport m
    (sendBulkResponse r false (some e), Outcome.ret (some e))
  | CallOutcome.response res =>
    match processResponseOld r res with
    | (evs, _, o) => (evs, o)

/-- `batch`: map from group key to `bulkRequest`. -/
abbrev batch := List (String × bulkRequest)

/-- `getKey`: `strings.Join(rr.req.Fields, "") + rr.req.Index`. -/
def getKey (rr : reqresp) : String :=
  String.join rr.req.Fields ++ rr.req.Index

/-- `batch.add`: `b[getKey(rr)][rr.req.DocumentID] = rr`.  When no group exists
  under `getKey(rr)`, `b[getKey(rr)]` is the zero value — a nil map — and the
  assignment into it panics at run time; this outcome is `none`.  When a group
  exists, the entry is stored under `rr.req.DocumentID` (the document id alone,
  not index ++ id). -/
def batch.add (b : batch) (rr : reqresp) : Option batch :=
  match lookupKey b (getKey rr) with
  | none => none
  | some br => some (insertKey b (getKey rr) (insertKey br rr.req.DocumentID rr))

/-- `batch.execute`: iterate the groups, run `performBulkRequest` on each, and
  return on the first error ("this will terminate batch on first error in
  request").  `env` gives the backend's outcome for each group's call. -/
def batch.execute (b : batch) (env : String → CallOutcome) : List Event × Outcome :=
  match b with
  | [] => ([], Outcome.ret none)
  | (k, br) :: rest =>
    match performBulkRequest br (env k) with
    | (evs, Outcome.blocked) => (evs, Outcome.blocked)
    | (evs, Outcome.ret (some e)) => (evs, Outcome.ret (some e))
    | (evs, Outcome.ret none) =>
      match batch.execute rest env with
      | (evs2, o) => (evs ++ evs2, o)

/-! ### Helper lemmas about the map embedding and the loops -/

section MapLemmas

variable {α : Type}

theorem lookupKey_cons (k' : String) (v : α) (rest : List (String × α)) (k : String) :
    lookupKey ((k', v) :: rest) k = if k' = k then some v else lookupKey rest k := rfl

theorem lookupKey_exists_of_mem_keys (m : List (String × α)) (k : String)
    (h : k ∈ m.map Prod.fst) : ∃ v, lookupKey m k = some v := by
  induction m with
  | nil => simp at h
  | cons p rest ih =>
    by_cases hk : p.1 = k
    · exact ⟨p.2, by simp [lookupKey, hk]⟩
    · have : k ∈ rest.map Prod.fst := by
        rcases List.mem_map.mp h with ⟨q, hq, hq1⟩
        rcases List.mem_cons.mp hq with hq | hq
        · exact absurd (hq ▸ hq1) hk
        · exact List.mem_map.mpr ⟨q, hq, hq1⟩
      rcases ih this with ⟨v, hv⟩
      exact ⟨v, by simpa [lookupKey, hk] using hv⟩

theorem mem_keys_eraseKey (m : List (String × α)) (k k' : String)
    (hne : k' ≠ k) (h : k' ∈ m.map Prod.fst) :
    k' ∈ (eraseKey m k).map Prod.fst := by
  rcases List.mem_map.mp h with ⟨p, hp, hp1⟩
  exact List.mem_map.mpr ⟨p, List.mem_filter.mpr ⟨hp, by simp [hp1, hne]⟩, hp1⟩

theorem keys_eraseKey_nodup (m : List (String × α)) (k : String)
    (h : (m.map Prod.fst).Nodup) : ((eraseKey m k).map Prod.fst).Nodup :=
  ((List.filter_sublist m).map Prod.fst).nodup h

theorem not_mem_keys_eraseKey (m : List (String × α)) (k : String) :
    k ∉ (eraseKey m k).map Prod.fst := by
  intro h
  rcases List.mem_map.mp h with ⟨p, hp, hp1⟩
  have := List.of_mem_filter hp
  simp [hp1] at this

theorem lookupKey_append_of_none (l1 l2 : List (String × α)) (k : String)
    (h : lookupKey l1 k = none) : lookupKey (l1 ++ l2) k = lookupKey l2 k := by
  induction l1 with
  | nil => rfl
  | cons p rest ih =>
    by_cases hk : p.1 = k
    · simp [lookupKey, hk] at h
    · simp only [lookupKey, hk, if_false, List.cons_append] at h ⊢
      exact ih h

theorem lookupKey_eraseKey_self (m : List (String × α)) (k : String) :
    lookupKey (eraseKey m k) k = none := by
  induction m with
  | nil => rfl
  | cons p rest ih =>
    by_cases hk : p.1 = k
    · simpa [eraseKey, hk] using ih
    · simpa [eraseKey, lookupKey, hk] using ih

theorem lookupKey_insertKey_self (m : List (String × α)) (k : String) (v : α) :
    lookupKey (insertKey m k v) k = some v := by
  unfold insertKey
  rw [lookupKey_append_of_none _ _ _ (lookupKey_eraseKey_self m k)]
  simp [lookupKey]

theorem keys_insertKey_nodup (m : List (String × α)) (k : String) (v : α)
    (h : (m.map Prod.fst).Nodup) : ((insertKey m k v).map Prod.fst).Nodup := by
  unfold insertKey
  rw [List.map_append]
  refine List.Nodup.append (keys_eraseKey_nodup m k h) (by simp) ?_
  intro a ha hb
  simp only [List.map_cons, List.map_nil, List.mem_singleton] at hb
  exact not_mem_keys_eraseKey m k (hb ▸ ha)

end MapLemmas

theorem send_mem_sendBulkResponse (r : bulkRequest) (found : Bool) (err : Option Err)
    (p : String × reqresp) (hp : p ∈ r) :
    Event.send p.2.resp ⟨found, err⟩ ∈ sendBulkResponse r found err :=
  List.mem_flatMap.mpr ⟨p, hp, by simp⟩

theorem close_mem_sendBulkResponse (r : bulkRequest) (found : Bool) (err : Option Err)
    (p : String × reqresp) (hp : p ∈ r) :
    Event.close p.2.resp ∈ sendBulkResponse r found err :=
  List.mem_flatMap.mpr ⟨p, hp, by simp⟩

/-- Splitting the per-doc loop after a successfully processed prefix. -/
theorem foldDocs_append (step : bulkRequest → responseDoc → List Event × bulkRequest × DStatus)
    (pre rest : List responseDoc) (r r1 : bulkRequest) (evs0 : List Event)
    (h : foldDocs step r pre = (evs0, r1, DStatus.ok)) :
    foldDocs step r (pre ++ rest) =
      (evs0 ++ (foldDocs step r1 rest).1, (foldDocs step r1 rest).2.1,
        (foldDocs step r1 rest).2.2) := by
  induction pre generalizing r evs0 with
  | nil =>
    simp only [foldDocs, Prod.mk.injEq] at h
    obtain ⟨h1, h2, -⟩ := h
    subst h1; subst h2
    simp
  | cons d pre' ih =>
    rcases hs : step r d with ⟨evsd, rd, sd⟩
    cases sd with
    | ok =>
      rcases hf : foldDocs step rd pre' with ⟨evs', r1', s'⟩
      simp only [foldDocs, hs, hf, Prod.mk.injEq] at h
      obtain ⟨h1, h2, h3⟩ := h
      subst h2
      have hih := ih rd evs' (by rw [hf, h3])
      simp only [List.cons_append, foldDocs, hs, List.append_eq, hih, ← h1,
        List.append_assoc]
    | abort e => simp only [foldDocs, hs, Prod.mk.injEq] at h; simp at h
    | blocked => simp only [foldDocs, hs, Prod.mk.injEq] at h; simp at h

/-- Splitting the batch loop after a successfully executed prefix of groups. -/
theorem batchExecute_append (pre rest : batch) (env : String → CallOutcome)
    (evs0 : List Event)
    (h : batch.execute pre env = (evs0, Outcome.ret none)) :
    batch.execute (pre ++ rest) env =
      (evs0 ++ (batch.execute rest env).1, (batch.execute rest env).2) := by
  induction pre generalizing evs0 with
  | nil =>
    simp only [batch.execute, Prod.mk.injEq] at h
    obtain ⟨h1, -⟩ := h
    subst h1
    simp
  | cons g pre' ih =>
    rcases g with ⟨k, br⟩
    rcases hs : performBulkRequest br (env k) with ⟨evsg, og⟩
    cases og with
    | ret e =>
      cases e with
      | none =>
        rcases hf : batch.execute pre' env with ⟨evs', o'⟩
        rw [batch.execute, hs, hf] at h
        simp only [Prod.mk.injEq] at h
        obtain ⟨h1, h2⟩ := h
        rw [List.cons_append, batch.execute, hs, ih _ (by rw [hf, h2]), ← h1,
          List.append_assoc]
      | some e => rw [batch.execute, hs] at h; simp at h
    | blocked => rw [batch.execute, hs] at h; simp at h

/-- In the current revision's 200 loop, no step blocks as long as the decoded
  entries carry pairwise distinct keys each of which is pending. -/
theorem foldDocs_processDoc_not_blocked (ds : List responseDoc) (r : bulkRequest)
    (hnd : (ds.map keyFromResponseDoc).Nodup)
    (hmem : ∀ d ∈ ds, keyFromResponseDoc d ∈ r.map Prod.fst) :
    (foldDocs processDoc r ds).2.2 ≠ DStatus.blocked := by
  induction ds generalizing r with
  | nil => simp [foldDocs]
  | cons d ds' ih =>
    rcases lookupKey_exists_of_mem_keys r (keyFromResponseDoc d)
      (hmem d (List.mem_cons_self d ds')) with ⟨rr, hrr⟩
    have hnd' : (ds'.map keyFromResponseDoc).Nodup := (List.nodup_cons.mp hnd).2
    have hne : ∀ d' ∈ ds', keyFromResponseDoc d' ≠ keyFromResponseDoc d := by
      intro d' hd' heq
      exact (List.nodup_cons.mp hnd).1 (heq ▸ List.mem_map.mpr ⟨d', hd', rfl⟩)
    have hmem' : ∀ d' ∈ ds',
        keyFromResponseDoc d' ∈ (eraseKey r (keyFromResponseDoc d)).map Prod.fst :=
      fun d' hd' => mem_keys_eraseKey r _ _ (hne d' hd')
        (hmem d' (List.mem_cons_of_mem d hd'))
    by_cases hfound : d.Found
    · rcases hu : unmarshal d.Source with m | p
      · have hpd : processDoc r d =
            ([Event.send rr.resp ⟨false, some (Err.decodeSource m)⟩, Event.close rr.resp],
              eraseKey r (keyFromResponseDoc d), DStatus.abort (Err.decodeSource m)) := by
          simp [processDoc, hfound, hrr, hu]
        simp [foldDocs, hpd]
      · have hpd : processDoc r d =
            ([Event.write rr.dst p, Event.send rr.resp ⟨true, none⟩, Event.close rr.resp],
              eraseKey r (keyFromResponseDoc d), DStatus.ok) := by
          simp [processDoc, hfound, hrr, hu]
        rcases hf : foldDocs processDoc (eraseKey r (keyFromResponseDoc d)) ds' with
          ⟨evs2, r2, s2⟩
        have hblk := ih (eraseKey r (keyFromResponseDoc d)) hnd' hmem'
        rw [hf] at hblk
        simpa [foldDocs, hpd, hf] using hblk
    · have hpd : processDoc r d =
          ([Event.send rr.resp ⟨false, none⟩, Event.close rr.resp],
            eraseKey r (keyFromResponseDoc d), DStatus.ok) := by
        simp [processDoc, hfound, hrr]
      rcases hf : foldDocs processDoc (eraseKey r (keyFromResponseDoc d)) ds' with
        ⟨evs2, r2, s2⟩
      have hblk := ih (eraseKey r (keyFromResponseDoc d)) hnd' hmem'
      rw [hf] at hblk
      simpa [foldDocs, hpd, hf] using hblk

/-- Whether an event sends on or closes channel `c`. -/
def touches (c : Nat) : Event → Bool
  | Event.send c' _ => c' == c
  | Event.close c' => c' == c
  | Event.write _ _ => false

/-! ### Concrete values used in witnesses and counterexamples -/

def rrX1 : reqresp := ⟨⟨"idxA", "1", ["t"]⟩, 10, 20⟩
def rrX3 : reqresp := ⟨⟨"idx", "1", []⟩, 5, 6⟩
def rrX4 : reqresp := ⟨⟨"i", "1", []⟩, 7, 8⟩
def dX4 : responseDoc := ⟨"i", "1", false, RawSource.nil⟩
def rrW1 : reqresp := ⟨⟨"iA", "1", []⟩, 30, 31⟩
def rrW2 : reqresp := ⟨⟨"iB", "1", []⟩, 40, 41⟩
def envW : String → CallOutcome := fun _ => CallOutcome.transportErr "conn refused"
def rrD1 : reqresp := ⟨⟨"i", "1", ["a"]⟩, 1, 2⟩
def rrD2 : reqresp := ⟨⟨"i", "1", ["a"]⟩, 3, 4⟩

/-! ### The claims -/

/-- Claim C1 (code bug): `batch.add(rr)` is claimed to create the group's
  `bulkRequest` when none exists and to key `rr` by (index, id).  The code
  `b[getKey(rr)][rr.req.DocumentID] = rr` instead panics when the group is
  missing (`b[getKey(rr)]` is a nil map) — modelled as `none` — and, when the
  group exists, stores the entry under the document id alone, which differs
  from the (index ++ id) key the bulk component looks entries up by. -/
theorem batch_add_panics_without_group :
    batch.add ([] : batch) rrX1 = none ∧
    batch.add [(getKey rrX1, [])] rrX1 =
      some [(getKey rrX1, [(rrX1.req.DocumentID, rrX1)])] ∧
    rrX1.req.DocumentID ≠ keyFromRR rrX1 :=
  ⟨rfl, rfl, by decide⟩

/-- Claim C2 (counterexample): the group-key derivation is *not* injective in
  (index, field list): fields `["ab"]` with index `"c"` and fields `["a"]` with
  index `"bc"` both yield the key `"abc"`. -/
theorem getKey_collision :
    getKey ⟨⟨"c", "1", ["ab"]⟩, 0, 0⟩ = getKey ⟨⟨"bc", "1", ["a"]⟩, 1, 1⟩ ∧
    ¬((⟨⟨"c", "1", ["ab"]⟩, 0, 0⟩ : reqresp).req.Index =
        (⟨⟨"bc", "1", ["a"]⟩, 1, 1⟩ : reqresp).req.Index ∧
      (⟨⟨"c", "1", ["ab"]⟩, 0, 0⟩ : reqresp).req.Fields =
        (⟨⟨"bc", "1", ["a"]⟩, 1, 1⟩ : reqresp).req.Fields) := by
  decide

/-- Claim C2 (amended): two requests with identical index and identical
  (order-sensitive) field sequence always derive the same group key; the
  converse direction of the claimed equivalence fails (see the
  counterexample). -/
theorem getKey_eq_of_index_fields_eq (rr1 rr2 : reqresp)
    (hi : rr1.req.Index = rr2.req.Index) (hf : rr1.req.Fields = rr2.req.Fields) :
    getKey rr1 = getKey rr2 := by
  unfold getKey
  rw [hi, hf]

/-- Witness for the amended claim C2. -/
theorem getKey_eq_of_index_fields_eq_witness :
    getKey ⟨⟨"idxA", "1", ["t"]⟩, 0, 0⟩ = getKey ⟨⟨"idxA", "2", ["t"]⟩, 5, 5⟩ :=
  getKey_eq_of_index_fields_eq _ _ rfl rfl

/-- Claim C3 (code bug): a 404 reply is claimed (and documented at `ErrHTTP`:
  "represents non-404 errors") to resolve every member as
  `{found:false, error:nil}`.  The current `processResponse` has no 404 case:
  404 falls into the default branch, `IsError(404)` holds, and every member
  receives the `ErrHTTP`-wrapped error, which is also returned. -/
theorem processResponse_404_delivers_http_error :
    processResponse [("idx1", rrX3)] ⟨404, Body.docs []⟩ =
      ([Event.send rrX3.resp ⟨false, some (Err.httpErr 404)⟩, Event.close rrX3.resp],
        [("idx1", rrX3)], Outcome.ret (some (Err.httpErr 404))) ∧
    Response.IsError ⟨404, Body.docs []⟩ = true :=
  ⟨rfl, rfl⟩

/-- Claim C4: `batch.execute` runs the groups in order and stops at the first
  group whose execution returns an error, returning that error; the event trace
  is exactly that of the already-executed groups, so a channel belonging only
  to a not-yet-executed group is never sent on or closed. -/
theorem batch_execute_stops_at_first_error (pre post : batch) (k : String)
    (br : bulkRequest) (env : String → CallOutcome) (evs0 evs1 : List Event) (e : Err)
    (hpre : batch.execute pre env = (evs0, Outcome.ret none))
    (hbr : performBulkRequest br (env k) = (evs1, Outcome.ret (some e))) :
    batch.execute (pre ++ (k, br) :: post) env = (evs0 ++ evs1, Outcome.ret (some e)) ∧
    ∀ g ∈ post, ∀ p ∈ g.2, (∀ ev ∈ evs0 ++ evs1, touches p.2.resp ev = false) →
      ∀ ev ∈ (batch.execute (pre ++ (k, br) :: post) env).1,
        touches p.2.resp ev = false := by
  have hmain : batch.execute (pre ++ (k, br) :: post) env =
      (evs0 ++ evs1, Outcome.ret (some e)) := by
    rw [batchExecute_append pre ((k, br) :: post) env evs0 hpre]
    simp [batch.execute, hbr]
  refine ⟨hmain, ?_⟩
  intro g _ p _ hno ev hev
  have h1 : (batch.execute (pre ++ (k, br) :: post) env).1 = evs0 ++ evs1 := by
    rw [hmain]
  rw [h1] at hev
  exact hno ev hev

/-- Witness for claim C4. -/
theorem batch_execute_stops_at_first_error_witness :
    batch.execute ([] ++ ("g1", [("iA1", rrW1)]) :: [("g2", [("iB1", rrW2)])]) envW =
      ([] ++ [Event.send 30 ⟨false, some (Err.transport "conn refused")⟩, Event.close 30],
        Outcome.ret (some (Err.transport "conn refused"))) :=
  (batch_execute_stops_at_first_error [] [("g2", [("iB1", rrW2)])] "g1" [("iA1", rrW1)]
    envW []
    [Event.send 30 ⟨false, some (Err.transport "conn refused")⟩, Event.close 30]
    (Err.transport "conn refused") rfl rfl).1

/-- Claim C5: when the multi-get call itself fails, `bulkRequest.execute`
  delivers `{found:false, error:transportErr}` to every pending request, closes
  each request's channel, and returns the transport error. -/
theorem execute_transport_failure (r : bulkRequest) (m : String) (p : String × reqresp)
    (hp : p ∈ r) :
    Event.send p.2.resp ⟨false, some (Err.transport m)⟩ ∈
      (bulkRequest.execute r (CallOutcome.transportErr m)).1 ∧
    Event.close p.2.resp ∈ (bulkRequest.execute r (CallOutcome.transportErr m)).1 ∧
    (bulkRequest.execute r (CallOutcome.transportErr m)).2 =
      Outcome.ret (some (Err.transport m)) := by
  refine ⟨?_, ?_, rfl⟩
  · exact send_mem_sendBulkResponse r false (some (Err.transport m)) p hp
  · exact close_mem_sendBulkResponse r false (some (Err.transport m)) p hp

/-- Witness for claim C5. -/
theorem execute_transport_failure_witness :
    Event.send rrX1.resp ⟨false, some (Err.transport "timeout")⟩ ∈
      (bulkRequest.execute [("idxA1", rrX1)] (CallOutcome.transportErr "timeout")).1 ∧
    Event.close rrX1.resp ∈
      (bulkRequest.execute [("idxA1", rrX1)] (CallOutcome.transportErr "timeout")).1 ∧
    (bulkRequest.execute [("idxA1", rrX1)] (CallOutcome.transportErr "timeout")).2 =
      Outcome.ret (some (Err.transport "timeout")) :=
  execute_transport_failure [("idxA1", rrX1)] "timeout" ("idxA1", rrX1) (by simp)

/-- Claim C6: when unmarshalling a found document's source fails,
  `processResponse` delivers `{found:false, error:decodeErr}` to that single
  request only, closes its channel, removes it from the group, aborts the rest
  of the group's processing (the trace ends there; the entries after the
  failing one and the still-pending requests are untouched), and returns the
  decode error. -/
theorem processResponse_decode_failure_aborts_group (r r1 : bulkRequest)
    (pre post : List responseDoc) (d : responseDoc) (rr : reqresp) (m : String)
    (evs0 : List Event)
    (hpre : foldDocs processDoc r pre = (evs0, r1, DStatus.ok))
    (hfound : d.Found = true)
    (hlook : lookupKey r1 (keyFromResponseDoc d) = some rr)
    (hbad : unmarshal d.Source = Except.error m) :
    processResponse r ⟨200, Body.docs (pre ++ d :: post)⟩ =
      (evs0 ++ [Event.send rr.resp ⟨false, some (Err.decodeSource m)⟩, Event.close rr.resp],
        eraseKey r1 (keyFromResponseDoc d), Outcome.ret (some (Err.decodeSource m))) := by
  have hpd : processDoc r1 d =
      ([Event.send rr.resp ⟨false, some (Err.decodeSource m)⟩, Event.close rr.resp],
        eraseKey r1 (keyFromResponseDoc d), DStatus.abort (Err.decodeSource m)) := by
    simp [processDoc, hfound, hlook, hbad]
  have hcons : foldDocs processDoc r1 (d :: post) =
      ([Event.send rr.resp ⟨false, some (Err.decodeSource m)⟩, Event.close rr.resp],
        eraseKey r1 (keyFromResponseDoc d), DStatus.abort (Err.decodeSource m)) := by
    simp [foldDocs, hpd]
  have hfold := foldDocs_append processDoc pre (d :: post) r r1 evs0 hpre
  rw [hcons] at hfold
  simp [processResponse, hfold]

/-- Witness for claim C6. -/
theorem processResponse_decode_failure_aborts_group_witness :
    processResponse [("idxA1", rrX1)]
        ⟨200, Body.docs ([] ++ ⟨"idxA", "1", true, RawSource.bad⟩ :: [])⟩ =
      ([] ++ [Event.send rrX1.resp ⟨false, some (Err.decodeSource "invalid character")⟩,
          Event.close rrX1.resp],
        eraseKey [("idxA1", rrX1)] (keyFromResponseDoc ⟨"idxA", "1", true, RawSource.bad⟩),
        Outcome.ret (some (Err.decodeSource "invalid character"))) :=
  processResponse_decode_failure_aborts_group [("idxA1", rrX1)] [("idxA1", rrX1)] [] []
    ⟨"idxA", "1", true, RawSource.bad⟩ rrX1 "invalid character" [] rfl rfl rfl rfl

/-- Claim C7: a request whose document the reply reports as found and whose
  source unmarshals successfully has the decoded payload written into its
  destination and receives `{found:true, error:nil}` on its channel, which is
  then closed. -/
theorem processResponse_found_roundtrip (r r1 : bulkRequest)
    (pre post : List responseDoc) (d : responseDoc) (rr : reqresp) (p : String)
    (evs0 : List Event)
    (hpre : foldDocs processDoc r pre = (evs0, r1, DStatus.ok))
    (hfound : d.Found = true)
    (hlook : lookupKey r1 (keyFromResponseDoc d) = some rr)
    (hok : unmarshal d.Source = Except.ok p) :
    Event.write rr.dst p ∈ (processResponse r ⟨200, Body.docs (pre ++ d :: post)⟩).1 ∧
    Event.send rr.resp ⟨true, none⟩ ∈
      (processResponse r ⟨200, Body.docs (pre ++ d :: post)⟩).1 ∧
    Event.close rr.resp ∈ (processResponse r ⟨200, Body.docs (pre ++ d :: post)⟩).1 := by
  have hpd : processDoc r1 d =
      ([Event.write rr.dst p, Event.send rr.resp ⟨true, none⟩, Event.close rr.resp],
        eraseKey r1 (keyFromResponseDoc d), DStatus.ok) := by
    simp [processDoc, hfound, hlook, hok]
  rcases hrest : foldDocs processDoc (eraseKey r1 (keyFromResponseDoc d)) post with
    ⟨evs2, r2, s2⟩
  have hcons : foldDocs processDoc r1 (d :: post) =
      ([Event.write rr.dst p, Event.send rr.resp ⟨true, none⟩, Event.close rr.resp] ++ evs2,
        r2, s2) := by
    simp [foldDocs, hpd, hrest]
  have hfold := foldDocs_append processDoc pre (d :: post) r r1 evs0 hpre
  rw [hcons] at hfold
  cases s2 <;> refine ⟨?_, ?_, ?_⟩ <;> simp [processResponse, hfold]

/-- Witness for claim C7. -/
theorem processResponse_found_roundtrip_witness :
    Event.write rrX1.dst "payload" ∈
      (processResponse [("idxA1", rrX1)]
        ⟨200, Body.docs ([] ++ ⟨"idxA", "1", true, RawSource.ok "payload"⟩ :: [])⟩).1 ∧
    Event.send rrX1.resp ⟨true, none⟩ ∈
      (processResponse [("idxA1", rrX1)]
        ⟨200, Body.docs ([] ++ ⟨"idxA", "1", true, RawSource.ok "payload"⟩ :: [])⟩).1 ∧
    Event.close rrX1.resp ∈
      (processResponse [("idxA1", rrX1)]
        ⟨200, Body.docs ([] ++ ⟨"idxA", "1", true, RawSource.ok "payload"⟩ :: [])⟩).1 :=
  processResponse_found_roundtrip [("idxA1", rrX1)] [("idxA1", rrX1)] [] []
    ⟨"idxA", "1", true, RawSource.ok "payload"⟩ rrX1 "payload" [] rfl rfl rfl rfl

/-- Claim C8: adding a second request with the same (index, id) into one
  `bulkRequest` silently overwrites the earlier entry; only the later
  submission remains, so only its channel is resolved, and the keys of the map
  stay unique. -/
theorem bulkRequest_add_duplicate_overwrites (r : bulkRequest) (rr1 rr2 : reqresp)
    (hk : keyFromRR rr1 = keyFromRR rr2) :
    lookupKey (bulkRequest.add (bulkRequest.add r rr1) rr2) (keyFromRR rr2) = some rr2 ∧
    bulkRequest.add (bulkRequest.add [] rr1) rr2 = [(keyFromRR rr2, rr2)] ∧
    sendBulkResponse (bulkRequest.add (bulkRequest.add [] rr1) rr2) false none =
      [Event.send rr2.resp ⟨false, none⟩, Event.close rr2.resp] ∧
    ((r.map Prod.fst).Nodup → ((bulkRequest.add r rr1).map Prod.fst).Nodup) := by
  refine ⟨lookupKey_insertKey_self _ _ _, ?_, ?_, keys_insertKey_nodup r _ rr1⟩
  · simp [bulkRequest.add, insertKey, eraseKey, hk]
  · simp [bulkRequest.add, insertKey, eraseKey, hk, sendBulkResponse]

/-- Witness for claim C8. -/
theorem bulkRequest_add_duplicate_overwrites_witness :
    lookupKey (bulkRequest.add (bulkRequest.add [] rrD1) rrD2) (keyFromRR rrD2) =
      some rrD2 :=
  (bulkRequest_add_duplicate_overwrites [] rrD1 rrD2 rfl).1

/-- Claim C9 (counterexample): the two revisions are *not* behaviourally
  equivalent.  For the same pending request they build different call bodies
  (the old revision's malformed struct tags serialise the Go field names).
  For the same 200 reply carrying the one requested, found document, the
  current revision writes the payload, resolves `{found:true, error:nil}` and
  returns nil, while the old revision's decoder loses `_index`/`_id`, derives
  the empty lookup key, misses the pending map and blocks on the zero value.
  And a 404 reply resolves `{found:false, error:ErrHTTP}` and returns the
  error in the current revision but resolves `{found:false, error:nil}` and
  returns nil in the old one. -/
theorem revisions_differ_on_body_and_response :
    getReqBody [("idxA1", rrX1)] ≠ getReqBodyOld [("idxA1", rrX1)] ∧
    bulkRequest.execute [("idxA1", rrX1)]
        (CallOutcome.response ⟨200, Body.docs [⟨"idxA", "1", true, RawSource.ok "p"⟩]⟩) =
      ([Event.write rrX1.dst "p", Event.send rrX1.resp ⟨true, none⟩,
          Event.close rrX1.resp], Outcome.ret none) ∧
    performBulkRequest [("idxA1", rrX1)]
        (CallOutcome.response ⟨200, Body.docs [⟨"idxA", "1", true, RawSource.ok "p"⟩]⟩) =
      ([], Outcome.blocked) ∧
    decodeDocOld ⟨"idxA", "1", true, RawSource.ok "p"⟩ =
      ⟨"", "", true, RawSource.ok "p"⟩ ∧
    bulkRequest.execute [("idx1", rrX3)] (CallOutcome.response ⟨404, Body.docs []⟩) =
      ([Event.send rrX3.resp ⟨false, some (Err.httpErr 404)⟩, Event.close rrX3.resp],
        Outcome.ret (some (Err.httpErr 404))) ∧
    performBulkRequest [("idx1", rrX3)] (CallOutcome.response ⟨404, Body.docs []⟩) =
      ([Event.send rrX3.resp ⟨false, none⟩, Event.close rrX3.resp], Outcome.ret none) := by
  refine ⟨?_, rfl, rfl, rfl, rfl, rfl⟩
  simp [getReqBody, getReqBodyOld]

/-- Claim C9 (amended): the agreement that survives: the two revisions compute
  the same request-side storage key, their `add` operations coincide, and on a
  transport failure they behave identically (same sends and closes on every
  pending channel, same returned error); call-body construction and response
  processing are not equivalent (see the counterexample). -/
theorem revisions_agree_on_transport_and_request_keys :
    (∀ (r : bulkRequest) (m : String),
      bulkRequest.execute r (CallOutcome.transportErr m) =
        performBulkRequest r (CallOutcome.transportErr m)) ∧
    (∀ rr : reqresp, keyFromRR rr = keyFromRROld rr) ∧
    (∀ (r : bulkRequest) (rr : reqresp), bulkRequest.add r rr = bulkRequestAddOld r rr) :=
  ⟨fun _ _ => rfl, fun _ => rfl, fun _ _ => rfl⟩

/-- Claim C10 (counterexample): when the reply lists the same document twice,
  the second occurrence looks up a key the first resolution already deleted:
  the lookup misses (yields the zero value) and the delivery path blocks on the
  zero value's nil channel. -/
theorem duplicate_reply_doc_blocks :
    processResponse [("i1", rrX4)] ⟨200, Body.docs [dX4, dX4]⟩ =
      ([Event.send rrX4.resp ⟨false, none⟩, Event.close rrX4.resp], [],
        Outcome.blocked) ∧
    lookupKey (eraseKey [("i1", rrX4)] (keyFromResponseDoc dX4)) (keyFromResponseDoc dX4) =
      none :=
  ⟨rfl, rfl⟩

/-- Claim C10 (amended): during processing of a 200 reply whose decoded entries
  carry pairwise distinct keys, each of which is pending in the map (as the
  keys stored by `bulkRequest.add` are), the delivery path never operates on
  the zero value of a missing-key lookup — execution never blocks. -/
theorem processResponse_no_zero_value_on_distinct_keys (r : bulkRequest)
    (ds : List responseDoc)
    (hnd : (ds.map keyFromResponseDoc).Nodup)
    (hmem : ∀ d ∈ ds, keyFromResponseDoc d ∈ r.map Prod.fst) :
    (processResponse r ⟨200, Body.docs ds⟩).2.2 ≠ Outcome.blocked := by
  have h := foldDocs_processDoc_not_blocked ds r hnd hmem
  rcases hf : foldDocs processDoc r ds with ⟨evs, r1, s⟩
  rw [hf] at h
  cases s with
  | ok => simp [processResponse, hf]
  | abort e => simp [processResponse, hf]
  | blocked => simp at h

/-- Witness for the amended claim C10. -/
theorem processResponse_no_zero_value_on_distinct_keys_witness :
    (processResponse [("i1", rrX4)]
        ⟨200, Body.docs [⟨"i", "1", true, RawSource.ok "p"⟩]⟩).2.2 ≠
      Outcome.blocked :=
  processResponse_no_zero_value_on_distinct_keys [("i1", rrX4)]
    [⟨"i", "1", true, RawSource.ok "p"⟩] (by decide) (by decide)

end DeltaSearch
